import Mathlib

/-!
Verification development for the `deploy` module
(`src/roles/test1/library/deploy.py`), a single-file/directory-tree copy
engine with backup, validation and metadata reconciliation.

The embedding is shallow:

* Python strings are Lean `String`s; the character-level helpers
  (`replaceFirstL`, `joinL`, `isPre`, `hasSub`) model the exact semantics of
  `str.replace(old, new, 1)`, POSIX `os.path.join` (an absolute later
  component discards everything before it) and the `in` substring test.
* The filesystem seen by the tree-synchronisation functions is the mutual
  inductive `FNode`/`FRes`/`FEntries`: regular files carry content, mtime and
  owner/group ids; directories carry a (sorted, as `filecmp.dircmp` sorts
  `os.listdir`) association list of children; symbolic links carry their
  target string together with the resolved view of the target (`FRes`), which
  is what the link-following `os.stat`/`os.path.isfile`/`os.path.isdir`
  calls observe.  Mutating functions are state passing: they return the new
  destination listing; fallible operations return `Except TErr`.
* Content digests (`module.sha1`) are modelled by the identity function on
  content: the digest function is an external collaborator assumed
  collision-free, so two digests are equal exactly when the contents are.
* The single-file commit path of `main` (lines 481-809) is `runMain` over a
  destination-path object `DNode` (absent / regular file / symbolic link);
  external command execution (the `validate` program) is modelled by the
  exit status the environment would return (`Cfg.validatorRc`).
-/

/-! ## Python string and path primitives -/

/-- Decides whether `p` is a leading segment of `s` (character lists). -/
def isPre : List Char → List Char → Bool
  | [], _ => true
  | _ :: _, [] => false
  | a :: p, b :: s => a = b && isPre p s

/-- Occurrence test: `hasSub p s` is Python's `p in s` on strings. -/
def hasSub (p : List Char) : List Char → Bool
  | [] => isPre p []
  | c :: rest => isPre p (c :: rest) || hasSub p rest

/-- Python `s.replace(old, new, 1)`: rewrite the first (leftmost) occurrence
of `old` in `s` by `new`; with `old` empty, Python inserts `new` in front. -/
def replaceFirstL (s old new : List Char) : List Char :=
  match s with
  | [] => if old.isEmpty then new else []
  | c :: rest =>
      if isPre old (c :: rest) then new ++ (c :: rest).drop old.length
      else c :: replaceFirstL rest old new

/-- POSIX `os.path.join` on two components: a later component that starts
with the separator throws away everything before it. -/
def joinL (a b : List Char) : List Char :=
  if b.head? = some '/' then b
  else if a = [] then b
  else if a.getLast? = some '/' then a ++ b
  else a ++ '/' :: b

/-- String wrapper for `joinL` (used when the source calls `os.path.join`). -/
def pyOsJoin (a b : String) : String := ⟨joinL a.data b.data⟩

/-- Substring test on strings, Python's `"%s" in validate`. -/
def containsPctS (v : String) : Bool := hasSub "%s".data v.data

/-! ## Backup path derivation (`backup_local`, lines 428-468)

The source reads `dest` from `module.params['dest']`, ignores the
caller-supplied `backup_dir`/`ticket_id` parameters in favour of the
hardcoded constants `'/app/bak'` and `'123456'` (lines 436-437), and derives

  `backupdest = os.path.join(backup_dir, backup_date, ticket_id,
                             fn.replace(dest, '', 1))`   (line 449).

`backup_local_dest` is exactly that computation; the preserved copy and the
`os.makedirs` on the parent are modelled as events by the tree executor. -/

/-- Backup destination computed by `backup_local` for original path `fn`
under destination root `dest` with per-invocation date `backup_date`. -/
def backup_local_dest (dest fn backup_date : String) : String :=
  ⟨joinL (joinL (joinL "/app/bak".data backup_date.data) "123456".data)
      (replaceFirstL fn.data dest.data [])⟩

/-- Backup name produced by the framework collaborator
`module.backup_local` (used by `main` line 639 and `copy_left_only` lines
357/371/389): the original name plus a dotted time-stamped suffix, per the
module's own RETURN documentation sample
`/path/to/file.txt.2015-02-12@22:09~`. -/
def frameworkBackupLocal (fn date : String) : String := fn ++ "." ++ date ++ "~"

/-! Auxiliary lemmas about the string primitives. -/

theorem isPre_append (a b : List Char) : isPre a (a ++ b) = true := by
  induction a with
  | nil => rfl
  | cons c rest ih => simp [isPre, ih]

theorem replaceFirstL_append (dest rel : List Char) :
    replaceFirstL (dest ++ rel) dest [] = rel := by
  cases hd : dest with
  | nil =>
    cases rel with
    | nil => simp [replaceFirstL]
    | cons c r => simp [replaceFirstL, isPre]
  | cons c r =>
    subst hd
    have h : isPre (c :: r) ((c :: r) ++ rel) = true := isPre_append _ _
    rw [List.cons_append] at h
    simp only [List.cons_append, replaceFirstL, List.append_eq]
    rw [h]
    simp [List.drop_succ_cons, List.drop_left]

theorem joinL_not_sep (a b : List Char) (ha : a ≠ []) (hlast : a.getLast? ≠ some '/')
    (hb : b.head? ≠ some '/') : joinL a b = a ++ '/' :: b := by
  simp [joinL, hb, ha, hlast]

/-- C2 (counterexample): the claimed path scheme
`{backup_root}/{transaction_identifier}/{relative_path}` fails on the code.
For `dest = "/tgt"` (no trailing separator) and original path
`fn = "/tgt/sub/mod.txt"`, line 449 computes
`fn.replace(dest, '', 1) = "/sub/mod.txt"`, which starts with the separator,
so `os.path.join` throws away the backup root, the date and the ticket id
entirely: the backup lands at `/sub/mod.txt` under the filesystem root, not
under `/app/bak` (nor under any caller-supplied backup root — lines 436-437
hardcode `'/app/bak'` and `'123456'`, ignoring the `backup_dir` and
`ticket_id` parameters). -/
theorem backup_path_claim_counterexample :
    backup_local_dest "/tgt" "/tgt/sub/mod.txt" "2026-10-12" = "/sub/mod.txt" ∧
    isPre "/app/bak".data "/sub/mod.txt".data = false := ⟨rfl, by decide⟩

/-- Helper settling the pure `os.path.join` chain of `backup_local`. -/
theorem joinChain (dateL relL : List Char)
    (hd : dateL ≠ []) (hdh : dateL.head? ≠ some '/')
    (hdl : dateL.getLast? ≠ some '/') (hrh : relL.head? ≠ some '/') :
    joinL (joinL (joinL "/app/bak".data dateL) "123456".data) relL =
      "/app/bak/".data ++ dateL ++ "/123456/".data ++ relL := by
  rw [joinL_not_sep "/app/bak".data dateL (by decide) (by decide) hdh]
  rw [joinL_not_sep ("/app/bak".data ++ '/' :: dateL) "123456".data (by simp)
    (by
      rw [List.getLast?_append_cons,
        show ('/' :: dateL) = ['/'] ++ dateL from rfl,
        List.getLast?_append_of_ne_nil _ hd]
      exact hdl) (by decide)]
  rw [joinL_not_sep (("/app/bak".data ++ '/' :: dateL) ++ '/' :: "123456".data) relL
    (by simp) (by rw [List.getLast?_append_cons]; decide) hrh]
  have h1 : "/app/bak/".data = "/app/bak".data ++ ['/'] := rfl
  have h2 : "/123456/".data = '/' :: ("123456".data ++ ['/']) := rfl
  simp [h1, h2, List.append_assoc]

/-- C2 (amended): `backup_local` stores the backup of `fn` at
`os.path.join('/app/bak', backup_date, '123456', fn.replace(dest, '', 1))`,
where `'/app/bak'` and `'123456'` are hardcoded constants (the caller-supplied
`backup_dir`/`ticket_id` parameters are ignored) and `backup_date` is
generated once per invocation.  When the destination root `dest` ends with
the separator — so that stripping it leaves a relative path — this is the
deterministic layout
`/app/bak/{backup_date}/123456/{relative_path_under_destination_root}`;
when it does not, the leading separator that survives the strip makes
`os.path.join` discard the backup root (see the counterexample). -/
theorem backup_local_dest_scheme (dest rel date : String)
    (hd : date.data ≠ []) (hdh : date.data.head? ≠ some '/')
    (hdl : date.data.getLast? ≠ some '/')
    (hrh : rel.data.head? ≠ some '/') :
    backup_local_dest dest (dest ++ rel) date =
      "/app/bak/" ++ date ++ "/123456/" ++ rel := by
  apply String.ext
  show joinL (joinL (joinL "/app/bak".data date.data) "123456".data)
      (replaceFirstL (dest ++ rel).data dest.data []) =
    ("/app/bak/" ++ date ++ "/123456/" ++ rel).data
  rw [String.data_append dest rel, replaceFirstL_append]
  rw [joinChain date.data rel.data hd hdh hdl hrh]
  simp [String.data_append, List.append_assoc]

/-- Witness for `backup_local_dest_scheme` at concrete inputs. -/
theorem backup_local_dest_scheme_witness :
    backup_local_dest "/tgt/" ("/tgt/" ++ "sub/mod.txt") "dA" =
      "/app/bak/" ++ "dA" ++ "/123456/" ++ "sub/mod.txt" :=
  backup_local_dest_scheme "/tgt/" "sub/mod.txt" "dA"
    (by decide) (by decide) (by decide) (by decide)

/-! ## Filesystem trees for the tree-synchronisation engine

Directory listings are association lists kept in sorted name order, matching
`filecmp.dircmp`, which sorts the `os.listdir` results it compares.  A
symbolic link stores its target string and the resolved view `FRes` of what
the target currently is, which is what the link-following calls
(`os.stat`, `os.path.isfile`, `os.path.isdir`, `shutil.copy2`) observe. -/

mutual
inductive FNode where
  | file (content : String) (mtime : Nat) (uid : Nat) (gid : Nat) : FNode
  | dir (children : FEntries) (uid : Nat) (gid : Nat) : FNode
  | lnk (target : String) (res : FRes) : FNode

inductive FRes where
  | dangling : FRes
  | toFile (content : String) (mtime : Nat) : FRes
  | toDir (children : FEntries) : FRes

inductive FEntries where
  | nil : FEntries
  | cons (name : String) (node : FNode) (rest : FEntries) : FEntries
end

/-- Directory lookup by entry name. -/
def entsLookup : FEntries → String → Option FNode
  | .nil, _ => none
  | .cons m x r, n => if m = n then some x else entsLookup r n

/-- Entry names in listing order. -/
def entsNames : FEntries → List String
  | .nil => []
  | .cons m _ r => m :: entsNames r

/-- Existence test, `os.path.lexists` of a directory entry. -/
def entsHas (e : FEntries) (n : String) : Bool := (entsLookup e n).isSome

/-- Replace the named entry, or append it if absent (a fresh create). -/
def entsSet : FEntries → String → FNode → FEntries
  | .nil, n, v => .cons n v .nil
  | .cons m x r, n, v => if m = n then .cons m v r else .cons m x (entsSet r n v)

/-- Children a recursion or `os.walk`/`copytree` descends into: a real
directory's listing, or the resolved listing behind a link to a directory. -/
def entChildren : FNode → Option FEntries
  | .dir ch _ _ => some ch
  | .lnk _ (.toDir ch) => some ch
  | _ => none

/-- Rebuild a node with new children, keeping its kind and identity. -/
def setChildren : FNode → FEntries → FNode
  | .dir _ u g, ch => .dir ch u g
  | .lnk t (.toDir _), ch => .lnk t (.toDir ch)
  | n, _ => n

/-- The `os.path.islink` test (never follows). -/
def islinkN : FNode → Bool
  | .lnk _ _ => true
  | _ => false

/-- The `os.path.isfile` test (follows links). -/
def isfileN : FNode → Bool
  | .file _ _ _ _ => true
  | .lnk _ (.toFile _ _) => true
  | _ => false

/-- The `os.path.isdir` test (follows links). -/
def isdirN : FNode → Bool
  | .dir _ _ _ => true
  | .lnk _ (.toDir _) => true
  | _ => false

/-- Link target string (`os.readlink`); dummy on non-links. -/
def linkTarget : FNode → String
  | .lnk t _ => t
  | _ => ""

/-- Resolved view of a link; dummy on non-links. -/
def linkRes : FNode → FRes
  | .lnk _ r => r
  | _ => .dangling

/-- Content and mtime seen when reading the entry as a file (follows links),
as `shutil.copy2` and `filecmp.cmp` do. -/
def fileViewN : FNode → Option (String × Nat)
  | .file c m _ _ => some (c, m)
  | .lnk _ (.toFile c m) => some (c, m)
  | _ => none

/-! ### The tree differ: `filecmp.dircmp`

`dircmp` classifies by `os.stat` type (following links): differing types or
broken links are "funny", directories go to `common_dirs`, regular files to
`common_files`.  `diff_files` comes from `filecmp.cmpfiles` with its default
shallow mode: if the stat signatures (size, mtime) of the two regular files
agree the pair is declared equal without reading it; only when the
signatures differ are the byte contents compared. -/

/-- Stat classification: `some true` directory, `some false` regular file,
`none` broken link (`os.stat` raises). -/
def statType : FNode → Option Bool
  | .file _ _ _ _ => some false
  | .dir _ _ _ => some true
  | .lnk _ (.toFile _ _) => some false
  | .lnk _ (.toDir _) => some true
  | .lnk _ .dangling => none

/-- Names present in both listings (`dircmp.common`). -/
def commonNames (l r : FEntries) : List String :=
  (entsNames l).filter fun n => entsHas r n

/-- Names only in the left listing (`dircmp.left_only`). -/
def leftOnlyNames (l r : FEntries) : List String :=
  (entsNames l).filter fun n => !entsHas r n

/-- Common names that are directories on both sides (`dircmp.common_dirs`). -/
def commonDirs (l r : FEntries) : List String :=
  (commonNames l r).filter fun n =>
    decide ((entsLookup l n).bind statType = some true) &&
    decide ((entsLookup r n).bind statType = some true)

/-- Common names that are regular files on both sides
(`dircmp.common_files`). -/
def commonFiles (l r : FEntries) : List String :=
  (commonNames l r).filter fun n =>
    decide ((entsLookup l n).bind statType = some false) &&
    decide ((entsLookup r n).bind statType = some false)

/-- Shallow file comparison, `filecmp.cmp(f1, f2)` with the default
`shallow=True`: equal (size, mtime) signatures short-circuit to "same";
otherwise the contents are compared.  Returns `true` when the files are
considered equal. -/
def cmpShallow (a b : FNode) : Bool :=
  match fileViewN a, fileViewN b with
  | some (c1, m1), some (c2, m2) =>
      if c1.length = c2.length ∧ m1 = m2 then true else decide (c1 = c2)
  | _, _ => false

/-- The changed-file set of one directory level (`dircmp.diff_files`). -/
def diffFiles (l r : FEntries) : List String :=
  (commonFiles l r).filter fun n =>
    match entsLookup l n, entsLookup r n with
    | some a, some b => !cmpShallow a b
    | _, _ => false

/-! ## The sync executor -/

/-- Failures the tree executor can raise (uncaught Python exceptions):
`os.symlink`/`shutil.copytree` onto an existing path raises
`FileExistsError`; `shutil.copy2`/`copytree` of a broken source raises. -/
inductive TErr where
  | fileExists (path : String)
  | copyError (path : String)
deriving DecidableEq, Repr

/-- Configuration the tree functions read from the module: the relevant
`module.params` entries, check mode, and the per-invocation backup date. -/
structure TCfg where
  owner : Option Nat
  group : Option Nat
  localFollow : Option Bool
  backup : Bool
  checkMode : Bool
  destRoot : String
  backupDate : String
deriving DecidableEq, Repr

/-- Identity of the invoking process: owner/group given to files a plain
copy creates (a fixed constant in the model). -/
def procUid : Nat := 0

/-- Group id of the invoking process (fixed constant in the model). -/
def procGid : Nat := 0

/-- Mode bits `open(path, 'w')` gives a freshly created empty file. -/
def newFileMode : Nat := 644

/-- The value `local_follow is True` in Python (`None` is not `True`). -/
def lfIsTrue : Option Bool → Bool
  | some true => true
  | _ => false

/-- The value `local_follow is False` in Python (`None` is not `False`). -/
def lfIsFalse : Option Bool → Bool
  | some false => true
  | _ => false

/-- The `symlinks=not(local_follow)` argument passed to `shutil.copytree`:
`not None` and `not False` are both `True`. -/
def symlinksArg (cfg : TCfg) : Bool := !lfIsTrue cfg.localFollow

/-- Owner/group update of one filesystem object,
`module.set_owner_if_different` / `set_group_if_different`: each requested
identity is written where it differs.  Link objects are left as they are
(ownership of the link itself is not modelled). -/
def nodeChown (owner group : Option Nat) : FNode → FNode
  | .file c m u g => .file c m (owner.getD u) (group.getD g)
  | .dir ch u g => .dir ch (owner.getD u) (group.getD g)
  | .lnk t r => .lnk t r

/-- Owner/group application to one named destination entry (the
`set_owner_if_different`/`set_group_if_different` pair the copy loops run on
`b_dest_item_path`). -/
def applyOwnerGroup (cfg : TCfg) (e : FEntries) (item : String) : FEntries :=
  match entsLookup e item with
  | some n => entsSet e item (nodeChown cfg.owner cfg.group n)
  | none => e

/-! `chown_recursive` (lines 225-287): walk the subtree; outside check mode
write each requested identity where it differs, in check mode only compare
the recorded ids — the same changed determination either way.  `os.walk`
does not descend through symbolic links. -/

mutual
/-- Recursive ownership reconciliation of one node (`chown_recursive`). -/
def chownNode (cfg : TCfg) : FNode → Bool × FNode
  | .file c m u g =>
      let ch := (match cfg.owner with | some v => decide (v ≠ u) | none => false) ||
                (match cfg.group with | some v => decide (v ≠ g) | none => false)
      if cfg.checkMode then (ch, .file c m u g)
      else (ch, .file c m (cfg.owner.getD u) (cfg.group.getD g))
  | .dir ents u g =>
      let ch := (match cfg.owner with | some v => decide (v ≠ u) | none => false) ||
                (match cfg.group with | some v => decide (v ≠ g) | none => false)
      let (chc, ents1) := chownEnts cfg ents
      if cfg.checkMode then (ch || chc, .dir ents u g)
      else (ch || chc, .dir ents1 (cfg.owner.getD u) (cfg.group.getD g))
  | .lnk t r => (false, .lnk t r)

/-- Listing traversal for `chownNode`. -/
def chownEnts (cfg : TCfg) : FEntries → Bool × FEntries
  | .nil => (false, .nil)
  | .cons n x rest =>
      let (c1, x1) := chownNode cfg x
      let (c2, r1) := chownEnts cfg rest
      (c1 || c2, .cons n x1 r1)
end

/-! `shutil.copytree(src, dst, symlinks=...)`: deep copy of a directory (or
of the directory behind a followed link).  With `symlinks=True` links are
recreated as links; with `symlinks=False` they are resolved, and a broken
link makes the copy raise. -/

mutual
/-- Copy of one child inside `shutil.copytree`. -/
def copytreeChild (symlinks : Bool) : FNode → Except TErr FNode
  | .file c m _ _ => .ok (.file c m procUid procGid)
  | .dir ch _ _ =>
      match copytreeEnts symlinks ch with
      | .error e => .error e
      | .ok ch1 => .ok (.dir ch1 procUid procGid)
  | .lnk t r =>
      if symlinks then .ok (.lnk t r)
      else
        match r with
        | .toFile c m => .ok (.file c m procUid procGid)
        | .toDir ch =>
            match copytreeEnts symlinks ch with
            | .error e => .error e
            | .ok ch1 => .ok (.dir ch1 procUid procGid)
        | .dangling => .error (.copyError t)

/-- Listing traversal for `copytreeChild`. -/
def copytreeEnts (symlinks : Bool) : FEntries → Except TErr FEntries
  | .nil => .ok .nil
  | .cons n x rest =>
      match copytreeChild symlinks x with
      | .error e => .error e
      | .ok x1 =>
          match copytreeEnts symlinks rest with
          | .error e => .error e
          | .ok r1 => .ok (.cons n x1 r1)
end

/-- Whole-tree entry point of `shutil.copytree` on a source that must list
as a directory (a directory or a link to one). -/
def copytreeRoot (symlinks : Bool) (n : FNode) : Except TErr FNode :=
  match entChildren n with
  | some ch =>
      match copytreeEnts symlinks ch with
      | .error e => .error e
      | .ok ch1 => .ok (.dir ch1 procUid procGid)
  | none => .error (.copyError "")

/-! ### `copy_diff_files` (lines 290-327)

For each `dircmp.diff_files` name: a source link with `local_follow is
False` is recreated with `os.symlink` — which raises `FileExistsError`,
because a diff entry by definition already exists at the destination;
otherwise the file is backed up (when requested, via the module-level
`backup_local`) and overwritten with `shutil.copy2`.  After either branch
the requested owner/group are applied to the destination entry.  In check
mode nothing is touched and only the changed flag is computed. -/

/-- One iteration of the `copy_diff_files` loop. -/
def cdfStep (srcPath destPath : String) (src : FEntries) (cfg : TCfg)
    (item : String) (dest : FEntries) : Except TErr (FEntries × List String) :=
  match entsLookup src item with
  | none => .ok (dest, [])
  | some sn =>
      if islinkN sn && lfIsFalse cfg.localFollow then
        if entsHas dest item then .error (.fileExists (pyOsJoin destPath item))
        else .ok (applyOwnerGroup cfg
          (entsSet dest item (.lnk (linkTarget sn) (linkRes sn))) item, [])
      else
        match fileViewN sn with
        | some (c, m) =>
            .ok (applyOwnerGroup cfg
              (entsSet dest item (.file c m procUid procGid)) item,
              if cfg.backup && entsHas dest item then
                [backup_local_dest cfg.destRoot (pyOsJoin destPath item) cfg.backupDate]
              else [])
        | none => .error (.copyError (pyOsJoin srcPath item))

/-- Loop of `copy_diff_files` over the diff list, threading the destination
listing and the emitted backup paths. -/
def cdfGo (srcPath destPath : String) (src : FEntries) (cfg : TCfg) :
    List String → FEntries → List String → Except TErr (FEntries × List String)
  | [], dest, evs => .ok (dest, evs)
  | item :: rest, dest, evs =>
      match cdfStep srcPath destPath src cfg item dest with
      | .error e => .error e
      | .ok (dest1, ev1) => cdfGo srcPath destPath src cfg rest dest1 (evs ++ ev1)

/-- The changed-file pass of one directory level (`copy_diff_files`). -/
def copy_diff_files (srcPath destPath : String) (src dest : FEntries)
    (cfg : TCfg) : Except TErr (Bool × FEntries × List String) :=
  let dfs := diffFiles src dest
  let changed := !dfs.isEmpty
  if cfg.checkMode then .ok (changed, dest, [])
  else
    match cdfGo srcPath destPath src cfg dfs dest [] with
    | .error e => .error e
    | .ok (dest1, evs) => .ok (changed, dest1, evs)

/-! ### `copy_left_only` (lines 330-405)

For each `dircmp.left_only` name the source entry's shape selects one of the
six sequential branches of the loop; backups in this function go through the
framework's `module.backup_local` (suffix naming) and only when the
destination path already exists — which a left-only entry never does. -/

/-- Framework-backup event helper for the `copy_left_only` branches. -/
def fwBackupEvents (cfg : TCfg) (destItemPath : String) (destHasIt : Bool) :
    List String :=
  if cfg.backup && destHasIt then [frameworkBackupLocal destItemPath cfg.backupDate]
  else []

/-- One iteration of the `copy_left_only` loop. -/
def cloStep (srcPath destPath : String) (src : FEntries) (cfg : TCfg)
    (item : String) (dest : FEntries) : Except TErr (FEntries × List String) :=
  match entsLookup src item with
  | none => .ok (dest, [])
  | some sn =>
      if islinkN sn && isdirN sn && lfIsTrue cfg.localFollow then
        if entsHas dest item then .error (.fileExists (pyOsJoin destPath item))
        else
          match copytreeRoot (symlinksArg cfg) sn with
          | .error e => .error e
          | .ok tn => .ok (entsSet dest item (chownNode cfg tn).2,
              fwBackupEvents cfg (pyOsJoin destPath item) (entsHas dest item))
      else if islinkN sn && isdirN sn && lfIsFalse cfg.localFollow then
        if entsHas dest item then .error (.fileExists (pyOsJoin destPath item))
        else .ok (entsSet dest item (.lnk (linkTarget sn) (linkRes sn)), [])
      else if islinkN sn && isfileN sn && lfIsTrue cfg.localFollow then
        match fileViewN sn with
        | some (c, m) =>
            .ok (applyOwnerGroup cfg
              (entsSet dest item (.file c m procUid procGid)) item,
              fwBackupEvents cfg (pyOsJoin destPath item) (entsHas dest item))
        | none => .error (.copyError (pyOsJoin destPath item))
      else if islinkN sn && isfileN sn && lfIsFalse cfg.localFollow then
        if entsHas dest item then .error (.fileExists (pyOsJoin destPath item))
        else .ok (entsSet dest item (.lnk (linkTarget sn) (linkRes sn)), [])
      else if !islinkN sn && isfileN sn then
        match fileViewN sn with
        | some (c, m) =>
            .ok (applyOwnerGroup cfg
              (entsSet dest item (.file c m procUid procGid)) item,
              fwBackupEvents cfg (pyOsJoin destPath item) (entsHas dest item))
        | none => .error (.copyError (pyOsJoin destPath item))
      else if !islinkN sn && isdirN sn then
        if entsHas dest item then .error (.fileExists (pyOsJoin destPath item))
        else
          match copytreeRoot (symlinksArg cfg) sn with
          | .error e => .error e
          | .ok tn => .ok (entsSet dest item (chownNode cfg tn).2, [])
      else .ok (dest, [])

/-- Loop of `copy_left_only` over the left-only list. -/
def cloGo (srcPath destPath : String) (src : FEntries) (cfg : TCfg) :
    List String → FEntries → List String → Except TErr (FEntries × List String)
  | [], dest, evs => .ok (dest, evs)
  | item :: rest, dest, evs =>
      match cloStep srcPath destPath src cfg item dest with
      | .error e => .error e
      | .ok (dest1, ev1) => cloGo srcPath destPath src cfg rest dest1 (evs ++ ev1)

/-- The new-only pass of one directory level (`copy_left_only`). -/
def copy_left_only (srcPath destPath : String) (src dest : FEntries)
    (cfg : TCfg) : Except TErr (Bool × FEntries × List String) :=
  let lo := leftOnlyNames src dest
  let changed := !lo.isEmpty
  if cfg.checkMode then .ok (changed, dest, [])
  else
    match cloGo srcPath destPath src cfg lo dest [] with
    | .error e => .error e
    | .ok (dest1, evs) => .ok (changed, dest1, evs)

/-! ### `copy_common_dirs` (lines 408-426)

Per common subdirectory: run the changed-file and new-only passes, then
line 425 is `changed = changed or copy_common_dirs(...)` — Python's lazy
`or`, so the recursive call only happens while `changed` is still false.
The model keeps that short-circuit exactly.  A fuel argument bounds the
recursion depth; every theorem instantiates it above the actual depth. -/

/-- Loop of `copy_common_dirs` over the common-subdirectory list with the
lazy-`or` recursion of line 425: `rec` is the recursive call into a
subdirectory pair, run only while `changed` is still false. -/
def ccdLoop (cfg : TCfg)
    (rec : String → String → FEntries → FEntries →
      Except TErr (Bool × FEntries × List String)) :
    String → String → FEntries → List String → Bool → FEntries → List String →
      Except TErr (Bool × FEntries × List String)
  | _, _, _, [], changed, dest, evs => .ok (changed, dest, evs)
  | srcPath, destPath, src, item :: rest, changed, dest, evs =>
      match entsLookup src item, entsLookup dest item with
      | some sn, some dn =>
          match entChildren sn, entChildren dn with
          | some ssub, some dsub =>
              let sp := pyOsJoin srcPath item
              let dp := pyOsJoin destPath item
              match copy_diff_files sp dp ssub dsub cfg with
              | .error e => .error e
              | .ok (dch, dsub1, ev1) =>
                  match copy_left_only sp dp ssub dsub1 cfg with
                  | .error e => .error e
                  | .ok (lch, dsub2, ev2) =>
                      let changed1 := changed || dch || lch
                      if changed1 then
                        ccdLoop cfg rec srcPath destPath src rest changed1
                          (entsSet dest item (setChildren dn dsub2))
                          (evs ++ ev1 ++ ev2)
                      else
                        match rec sp dp ssub dsub2 with
                        | .error e => .error e
                        | .ok (rch, dsub3, ev3) =>
                            ccdLoop cfg rec srcPath destPath src rest rch
                              (entsSet dest item (setChildren dn dsub3))
                              (evs ++ ev1 ++ ev2 ++ ev3)
          | _, _ => ccdLoop cfg rec srcPath destPath src rest changed dest evs
      | _, _ => ccdLoop cfg rec srcPath destPath src rest changed dest evs

/-- The shared-subdirectory pass (`copy_common_dirs`).  A fuel argument
bounds the recursion depth (exhausted fuel reports no change); every
theorem instantiates it above the actual tree depth. -/
def copy_common_dirs (cfg : TCfg) : Nat → String → String → FEntries → FEntries →
    Except TErr (Bool × FEntries × List String)
  | 0, _, _, _, dest => .ok (false, dest, [])
  | fuel + 1, srcPath, destPath, src, dest =>
      ccdLoop cfg (copy_common_dirs cfg fuel) srcPath destPath src
        (commonDirs src dest) false dest []

/-! ### `check_remote_files` (lines 471-479)

The function only runs `os.walk` and prints each `(dirpath, dirnames,
filenames)` triple; it mutates nothing and returns `None`. -/

mutual
/-- The `os.walk(path)` traversal (default `followlinks=False`): yields
nothing for a non-directory; for a directory (or a link to one, at the top)
yields its listing split into directory names and file names, then walks
the real subdirectories only. -/
def walkN (path : String) : FNode → List (String × List String × List String)
  | .file _ _ _ _ => []
  | .dir ch _ _ => (path, walkDirNames ch, walkFileNames ch) :: walkSubs path ch
  | .lnk _ (.toDir ch) => (path, walkDirNames ch, walkFileNames ch) :: walkSubs path ch
  | .lnk _ _ => []

/-- Subdirectory recursion of `os.walk`: links are listed but not entered. -/
def walkSubs (path : String) : FEntries → List (String × List String × List String)
  | .nil => []
  | .cons m x rest =>
      (if isdirN x && !islinkN x then walkN (pyOsJoin path m) x else []) ++
        walkSubs path rest

/-- Names `os.walk` reports as directories (`is_dir` follows links). -/
def walkDirNames : FEntries → List String
  | .nil => []
  | .cons m x rest =>
      if isdirN x then m :: walkDirNames rest else walkDirNames rest

/-- Names `os.walk` reports as files (everything not a directory). -/
def walkFileNames : FEntries → List String
  | .nil => []
  | .cons m x rest =>
      if isdirN x then walkFileNames rest else m :: walkFileNames rest
end

/-- The pre-backup check (`check_remote_files`): in state-passing form it
returns the filesystem unchanged together with the diagnostic walk lines it
prints. -/
def check_remote_files (path : String) (n : FNode) :
    FNode × List (String × List String × List String) := (n, walkN path n)

/-! ## The single-file commit path of `main` (lines 481-809)

Scope of the model: the source is a regular file (the directory-tree branch
of lines 727-796 dispatches to the tree functions above); `_original_basename`
is absent; the destination path has already been joined with the source
basename when the original destination was a directory, so `World.dest` is
the object at the final destination path; `os.access` read/write checks
succeed.  The digest `module.sha1` is the identity on content (a
collision-free digest compares contents exactly). -/

/-- Owner, group and mode bits of a filesystem object. -/
structure Attrs where
  uid : Nat
  gid : Nat
  mode : Nat
deriving DecidableEq, Repr

/-- A regular file: content bytes plus attributes. -/
structure RegFile where
  content : String
  attrs : Attrs
deriving DecidableEq, Repr

/-- The object at the destination path: absent, a regular file, or a
symbolic link carrying its target string and the regular file it resolves
to (`none` when dangling). -/
inductive DNode where
  | absent : DNode
  | regf (f : RegFile) : DNode
  | lnk (target : String) (res : Option RegFile) : DNode
deriving DecidableEq, Repr

/-- Content digest (`module.sha1`); identity in the model. -/
def sha1 (s : String) : String := s

/-- Module parameters and environment of one invocation. -/
structure Cfg where
  srcExists : Bool
  srcContent : String
  srcAttrs : Attrs
  destPath : String
  checksum : Option String
  backup : Bool
  force : Bool
  validate : Option String
  remoteSrc : Bool
  follow : Bool
  checkMode : Bool
  owner : Option Nat
  group : Option Nat
  mode : Option Nat
  destEndsSep : Bool
  backupDate : String
  validatorRc : Nat
  srcHasAcls : Bool
deriving DecidableEq, Repr

/-- The destination-side state `main` can observe and mutate. -/
structure World where
  dest : DNode
  dirnameExists : Bool
deriving DecidableEq, Repr

/-- Terminal outcomes of `main`: a normal `exit_json` (with the message and
changed flag it reports) or one of the `fail_json` calls. -/
inductive MOutcome where
  | exitOk (msg : Option String) (changed : Bool)
  | failSourceMissing
  | failChecksum (actual : Option String) (expected : String)
  | failDestDirMissing
  | failValidateTemplate (v : String)
  | failValidate (rc : Nat)
deriving DecidableEq, Repr

/-- Result of one `main` invocation: the outcome plus the final destination
object and the side effects performed (intermediate directories created,
backup taken, attributes written onto the staged source by the validation
step, ACLs cleared). -/
structure MainRes where
  outcome : MOutcome
  dest : DNode
  madeDirs : Bool
  backupFile : Option String
  srcAttrs : Attrs
  aclsCleared : Bool
deriving DecidableEq, Repr

/-- The checksum gate of line 562, `if checksum and checksum_src != checksum`
(an empty expected checksum is falsy and skips the gate). -/
def gateFails (cfg : Cfg) : Bool :=
  match cfg.checksum with
  | some c => decide (c ≠ "") && decide (sha1 cfg.srcContent ≠ c)
  | none => false

/-- Existence of the destination (`os.path.exists` follows links, so a
dangling link does not exist). -/
def destExistsB : DNode → Bool
  | .absent => false
  | .regf _ => true
  | .lnk _ r => r.isSome

/-- The `os.path.islink` test on the destination path. -/
def islinkB : DNode → Bool
  | .lnk _ _ => true
  | _ => false

/-- The regular file the destination path reads as (`os.path.isfile`
follows links). -/
def resolvedFile : DNode → Option RegFile
  | .regf f => some f
  | .lnk _ (some f) => some f
  | _ => none

/-- Attribute update `Option.getD` style: requested values overwrite. -/
def applyAttrs (cfg : Cfg) (a : Attrs) : Attrs :=
  ⟨cfg.owner.getD a.uid, cfg.group.getD a.gid, cfg.mode.getD a.mode⟩

/-- Whether `module.set_fs_attributes_if_different` would report a change:
some requested owner/group/mode differs from the current one. -/
def attrsDiffer (cfg : Cfg) (a : Attrs) : Bool :=
  (match cfg.owner with | some v => decide (v ≠ a.uid) | none => false) ||
  (match cfg.group with | some v => decide (v ≠ a.gid) | none => false) ||
  (match cfg.mode with | some v => decide (v ≠ a.mode) | none => false)

/-- Attributes of a freshly materialised empty file
(`open(b_dest, 'w').close()`, line 643). -/
def newFileAttrs : Attrs := ⟨procUid, procGid, newFileMode⟩

/-- Rebuild the object at the destination path from the (possibly followed)
working file: when the symlink was followed the link stays in place and its
target now resolves to the new file. -/
def rewrap (d0 : DNode) (followMode : Bool) (work : DNode) : DNode :=
  if followMode then
    match d0, work with
    | .lnk t _, .regf f => .lnk t (some f)
    | _, w => w
  else work

/-- The content-level change condition of line 634,
`checksum_src != checksum_dest or os.path.islink(b_dest)` — after the
line 605 `realpath` resolution, which clears the link test when `follow`
is set and the link resolves. -/
def cond634 (cfg : Cfg) (d : DNode) : Bool :=
  let followMode := islinkB d && cfg.follow && destExistsB d
  let checksumDest : Option String :=
    if destExistsB d then (resolvedFile d).map (fun f => sha1 f.content) else none
  decide (some (sha1 cfg.srcContent) ≠ checksumDest) || (islinkB d && !followMode)

/-- Lines 633-809: backup, symlink conversion, validation, atomic move, ACL
clearing and final metadata reconciliation, entered once the existence /
force / destination-directory checks passed. -/
def runCommit (cfg : Cfg) (d0 : DNode) (madeDirs : Bool) : MainRes :=
  let followMode := islinkB d0 && cfg.follow && destExistsB d0
  let islinkEff := islinkB d0 && !followMode
  let work0 : DNode :=
    if followMode then
      match resolvedFile d0 with
      | some f => .regf f
      | none => d0
    else d0
  if cond634 cfg d0 then
    if cfg.checkMode then
      -- line 635: the whole mutation block is skipped; line 721 still sets
      -- changed = True; line 805 skips the metadata step in check mode.
      ⟨.exitOk none true, d0, madeDirs, none, cfg.srcAttrs, false⟩
    else
      let backupFile := if cfg.backup && destExistsB d0 then
          some (frameworkBackupLocal cfg.destPath cfg.backupDate) else none
      -- lines 641-643: conversion from symlink to an empty regular file
      let conv : DNode := if islinkEff then .regf ⟨"", newFileAttrs⟩ else work0
      match cfg.validate with
      | some v =>
          -- lines 645-652: mode/owner/group are applied to the staged source
          -- before validation so the validator sees final attributes
          let srcAttrs2 := applyAttrs cfg cfg.srcAttrs
          if containsPctS v then
            if cfg.validatorRc ≠ 0 then
              ⟨.failValidate cfg.validatorRc, rewrap d0 followMode conv, madeDirs,
                backupFile, srcAttrs2, false⟩
            else
              let fin : RegFile := ⟨cfg.srcContent, applyAttrs cfg srcAttrs2⟩
              ⟨.exitOk none true, rewrap d0 followMode (.regf fin), madeDirs,
                backupFile, srcAttrs2, !cfg.remoteSrc && cfg.srcHasAcls⟩
          else
            ⟨.failValidateTemplate v, rewrap d0 followMode conv, madeDirs,
              backupFile, srcAttrs2, false⟩
      | none =>
          let fin : RegFile := ⟨cfg.srcContent, applyAttrs cfg cfg.srcAttrs⟩
          ⟨.exitOk none true, rewrap d0 followMode (.regf fin), madeDirs,
            backupFile, cfg.srcAttrs, !cfg.remoteSrc && cfg.srcHasAcls⟩
  else
    -- checksums equal and no link conversion needed: no content mutation
    if cfg.checkMode then
      ⟨.exitOk none false, d0, madeDirs, none, cfg.srcAttrs, false⟩
    else
      -- line 805: metadata reconciliation still runs outside check mode
      match work0 with
      | .regf f =>
          ⟨.exitOk none (attrsDiffer cfg f.attrs),
            rewrap d0 followMode (.regf ⟨f.content, applyAttrs cfg f.attrs⟩),
            madeDirs, none, cfg.srcAttrs, false⟩
      | w => ⟨.exitOk none false, w, madeDirs, none, cfg.srcAttrs, false⟩

/-- The single-file path of `main`: source checks, checksum gate,
trailing-separator directory creation, existence/force handling, then the
commit of lines 633-809. -/
def runMain (cfg : Cfg) (w : World) : MainRes :=
  if cfg.srcExists = false then
    ⟨.failSourceMissing, w.dest, false, none, cfg.srcAttrs, false⟩
  else if gateFails cfg then
    ⟨.failChecksum (some (sha1 cfg.srcContent)) (cfg.checksum.getD ""),
      w.dest, false, none, cfg.srcAttrs, false⟩
  else
    -- lines 572-592: a trailing-separator destination creates missing
    -- intermediate directories, even in check mode
    let madeDirs := cfg.destEndsSep && !w.dirnameExists
    if destExistsB w.dest then
      if cfg.force = false then
        ⟨.exitOk (some "file already exists") false, w.dest, madeDirs, none,
          cfg.srcAttrs, false⟩
      else runCommit cfg w.dest madeDirs
    else
      if (w.dirnameExists || madeDirs) = false then
        ⟨.failDestDirMissing, w.dest, madeDirs, none, cfg.srcAttrs, false⟩
      else runCommit cfg w.dest madeDirs

/-! ## Theorems about the tree engine -/

/-- Changed-flag accessor on a tree-pass result. -/
def okChanged : Except TErr (Bool × FEntries × List String) → Option Bool
  | .ok (b, _, _) => some b
  | .error _ => none

/-- Content of the regular file at a path (a name sequence) in a listing. -/
def lookupContentAt (e : FEntries) : List String → Option String
  | [] => none
  | [n] =>
      match entsLookup e n with
      | some (.file c _ _ _) => some c
      | _ => none
  | n :: rest =>
      match (entsLookup e n).bind entChildren with
      | some ch => lookupContentAt ch rest
      | none => none

/-- C9: the pre-backup check `check_remote_files` performs no filesystem
mutation and creates no backup: it only walks the directory tree and emits
the diagnostic `(dirpath, dirnames, filenames)` lines, returning nothing
else.  In state-passing form the filesystem component of its result is the
input filesystem, and its output is exactly the pure `os.walk` log. -/
theorem check_remote_files_pure (path : String) (n : FNode) :
    (check_remote_files path n).1 = n ∧
    (check_remote_files path n).2 = walkN path n := ⟨rfl, rfl⟩

/-! Concrete trees for the `copy_common_dirs` short-circuit.  Mtimes differ
between source and destination so the shallow comparison reads contents. -/

def c1cfg : TCfg := ⟨none, none, none, false, false, "/t", "d0"⟩

def c1src : FEntries :=
  .cons "d" (.dir (.cons "a.txt" (.file "new1" 1 0 0)
    (.cons "e" (.dir (.cons "b.txt" (.file "new2" 1 0 0) .nil) 0 0) .nil)) 0 0) .nil

def c1dest : FEntries :=
  .cons "d" (.dir (.cons "a.txt" (.file "old1" 2 0 0)
    (.cons "e" (.dir (.cons "b.txt" (.file "old2" 2 0 0) .nil) 0 0) .nil)) 0 0) .nil

def c1run1 : Except TErr (Bool × FEntries × List String) :=
  copy_common_dirs c1cfg 5 "/s" "/t" c1src c1dest

def c1dest1 : FEntries :=
  match c1run1 with
  | .ok (_, e, _) => e
  | .error _ => .nil

/-- C1 (code bug): line 425 reads
`changed = changed or copy_common_dirs(...)` — Python's lazy `or` — so once
anything at the current level changed, the recursion into the remaining
common subdirectories is skipped entirely, contradicting the specified
"performed ... regardless" / "never short-circuited" behaviour.  On the
concrete pair of trees: the mutating run updates `d/a.txt` and reports
changed, but never descends into the common subdirectory `d/e`, leaving
`d/e/b.txt` at its stale content; a second identical run then performs the
missed copy and reports changed again, violating the module's own
idempotence contract. -/
theorem copy_common_dirs_short_circuit_bug :
    okChanged c1run1 = some true ∧
    lookupContentAt c1dest1 ["d", "a.txt"] = some "new1" ∧
    lookupContentAt c1dest1 ["d", "e", "b.txt"] = some "old2" ∧
    lookupContentAt c1src ["d", "e", "b.txt"] = some "new2" ∧
    okChanged (copy_common_dirs c1cfg 5 "/s" "/t" c1src c1dest1) = some true :=
  ⟨rfl, rfl, rfl, rfl, rfl⟩

/-! Concrete listings for the shallow-comparison counterexample: different
contents of the same length under an identical mtime. -/

def c5src : FEntries := .cons "f" (.file "ab" 5 0 0) .nil

def c5dest : FEntries := .cons "f" (.file "cd" 5 0 0) .nil

/-- C5 (counterexample): the tree differ is `filecmp.dircmp`, whose default
shallow mode declares two regular files equal whenever their (size, mtime)
stat signatures agree, without reading them.  `src/f` containing `"ab"` and
`dest/f` containing `"cd"` (same length, same mtime) are therefore NOT
classified as changed, although a direct byte comparison would classify
them as changed — refuting "classifies files as changed by filename
identity plus direct byte-content comparison". -/
theorem diff_files_shallow_counterexample :
    diffFiles c5src c5dest = [] ∧
    lookupContentAt c5src ["f"] = some "ab" ∧
    lookupContentAt c5dest ["f"] = some "cd" := ⟨rfl, rfl, rfl⟩

/-- C5 (amended): the differ compares filename identity and then the
shallow stat signature (size, mtime), reading bytes only when the
signatures differ.  Consequently the claim's stated consequence does hold:
two common entries reading as files with equal byte content — whatever
their mtimes, modes or owners — are never placed in the changed set. -/
theorem equal_content_not_diff (src dest : FEntries) (n : String) (a b : FNode)
    (c : String) (m1 m2 : Nat)
    (ha : entsLookup src n = some a) (hb : entsLookup dest n = some b)
    (hva : fileViewN a = some (c, m1)) (hvb : fileViewN b = some (c, m2)) :
    n ∉ diffFiles src dest := by
  intro hmem
  unfold diffFiles at hmem
  rw [List.mem_filter] at hmem
  obtain ⟨-, hpred⟩ := hmem
  rw [ha, hb] at hpred
  simp [cmpShallow, hva, hvb] at hpred

def c5wsrc : FEntries := .cons "g" (.file "xy" 1 0 0) .nil

def c5wdest : FEntries := .cons "g" (.file "xy" 9 7 7) .nil

/-- Witness for `equal_content_not_diff`: same content under different
mtime and owner is not classified changed. -/
theorem equal_content_not_diff_witness : "g" ∉ diffFiles c5wsrc c5wdest :=
  equal_content_not_diff c5wsrc c5wdest "g" (.file "xy" 1 0 0) (.file "xy" 9 7 7)
    "xy" 1 9 rfl rfl rfl rfl

/-! Concrete listings for the symlink-over-existing-entry failure. -/

def c8cfg : TCfg := ⟨none, none, some false, false, false, "/t", "d0"⟩

def c8src : FEntries := .cons "x" (.lnk "tgt" (.toFile "A" 1)) .nil

def c8dest : FEntries := .cons "x" (.file "BB" 1 0 0) .nil

/-- C8 (counterexample): for a source entry that is a symbolic link to a
file, with link-following disabled, the changed-entry pass does NOT produce
a destination symlink: `os.symlink` (line 313) is called on the
destination path, which a diff entry by definition already occupies, so the
sync raises `FileExistsError` and produces no entry at all. -/
theorem symlink_diff_entry_error :
    copy_diff_files "/s" "/t" c8src c8dest c8cfg = .error (.fileExists "/t/x") ∧
    entsLookup c8dest "x" = some (.file "BB" 1 0 0) := ⟨rfl, rfl⟩

/-! Association-list lemmas for the new-only pass. -/

theorem entsLookup_set_self : (e : FEntries) → (n : String) → (v : FNode) →
    entsLookup (entsSet e n v) n = some v
  | .nil, n, v => by simp [entsSet, entsLookup]
  | .cons m x r, n, v => by
      by_cases h : m = n
      · subst h; simp [entsSet, entsLookup]
      · simp [entsSet, entsLookup, h, entsLookup_set_self r n v]

theorem entsLookup_set_ne : (e : FEntries) → (n n' : String) → (v : FNode) →
    n' ≠ n → entsLookup (entsSet e n v) n' = entsLookup e n'
  | .nil, n, n', v, h => by
      simp only [entsSet, entsLookup]
      rw [if_neg (fun hh => h hh.symm)]
  | .cons m x r, n, n', v, h => by
      simp only [entsSet]
      by_cases hm : m = n
      · subst hm
        simp only [if_pos rfl, entsLookup]
        rw [if_neg (fun hh => h hh.symm), if_neg (fun hh => h hh.symm)]
      · rw [if_neg hm]
        simp only [entsLookup]
        by_cases hm' : m = n'
        · rw [if_pos hm', if_pos hm']
        · rw [if_neg hm', if_neg hm', entsLookup_set_ne r n n' v h]

theorem entsLookup_mem_names : (e : FEntries) → (n : String) → (x : FNode) →
    entsLookup e n = some x → n ∈ entsNames e
  | .nil, n, x, h => by cases h
  | .cons m y r, n, x, h => by
      unfold entsLookup at h
      by_cases hm : m = n
      · subst hm; simp [entsNames]
      · rw [if_neg hm] at h
        simp only [entsNames, List.mem_cons]
        exact Or.inr (entsLookup_mem_names r n x h)

theorem applyOwnerGroup_lookup_ne (cfg : TCfg) (e : FEntries) (item n : String)
    (h : n ≠ item) : entsLookup (applyOwnerGroup cfg e item) n = entsLookup e n := by
  unfold applyOwnerGroup
  cases entsLookup e item with
  | none => rfl
  | some x => exact entsLookup_set_ne e item n _ h

theorem cloStep_lookup_ne (sp dp : String) (src : FEntries) (cfg : TCfg)
    (item : String) (dest d1 : FEntries) (ev : List String) (n : String)
    (hne : n ≠ item)
    (h : cloStep sp dp src cfg item dest = .ok (d1, ev)) :
    entsLookup d1 n = entsLookup dest n := by
  unfold cloStep at h
  repeat' split at h
  all_goals first
    | (injection h with h'
       injection h' with h1 h2
       subst h1
       first
         | rfl
         | (rw [applyOwnerGroup_lookup_ne _ _ _ _ hne, entsLookup_set_ne _ _ _ _ hne])
         | (rw [entsLookup_set_ne _ _ _ _ hne]))
    | injection h

theorem cloGo_lookup_ne (sp dp : String) (src : FEntries) (cfg : TCfg)
    (n : String) :
    ∀ (L : List String) (dest : FEntries) (evs : List String) (d1 : FEntries)
      (ev1 : List String), n ∉ L →
      cloGo sp dp src cfg L dest evs = .ok (d1, ev1) →
      entsLookup d1 n = entsLookup dest n := by
  intro L
  induction L with
  | nil =>
    intro dest evs d1 ev1 _ h
    injection h with h'
    injection h' with h1 h2
    subst h1
    rfl
  | cons item rest ih =>
    intro dest evs d1 ev1 hnot h
    unfold cloGo at h
    cases hstep : cloStep sp dp src cfg item dest with
    | error e => rw [hstep] at h; cases h
    | ok p =>
      obtain ⟨dmid, evmid⟩ := p
      rw [hstep] at h
      have hne : n ≠ item := fun hh => hnot (hh ▸ List.mem_cons_self item rest)
      have h1 := cloStep_lookup_ne sp dp src cfg item dest dmid evmid n hne hstep
      have h2 : cloGo sp dp src cfg rest dmid (evs ++ evmid) = .ok (d1, ev1) := h
      rw [ih dmid (evs ++ evmid) d1 ev1 (fun hh => hnot (List.mem_cons_of_mem _ hh)) h2, h1]

theorem cloGo_symlink (sp dp : String) (src : FEntries) (cfg : TCfg)
    (name tgt : String) (c : String) (m : Nat)
    (hlf : cfg.localFollow = some false)
    (hsrc : entsLookup src name = some (.lnk tgt (.toFile c m))) :
    ∀ (L : List String) (dest : FEntries) (evs : List String)
      (d1 : FEntries) (ev1 : List String), L.Nodup → name ∈ L →
      entsLookup dest name = none →
      cloGo sp dp src cfg L dest evs = .ok (d1, ev1) →
      entsLookup d1 name = some (.lnk tgt (.toFile c m)) := by
  intro L
  induction L with
  | nil => intro _ _ _ _ _ hm; cases hm
  | cons item rest ih =>
    intro dest evs d1 ev1 hnd hm hdest h
    rcases List.mem_cons.mp hm with hh | hmem
    · subst hh
      have hstep : cloStep sp dp src cfg name dest =
          .ok (entsSet dest name (.lnk tgt (.toFile c m)), []) := by
        unfold cloStep
        rw [hsrc]
        simp [islinkN, isdirN, isfileN, lfIsTrue, lfIsFalse, hlf, entsHas, hdest,
          linkTarget, linkRes]
      unfold cloGo at h
      rw [hstep] at h
      have hnotin : name ∉ rest := (List.nodup_cons.mp hnd).1
      have h2 : cloGo sp dp src cfg rest (entsSet dest name (.lnk tgt (.toFile c m)))
          (evs ++ []) = .ok (d1, ev1) := h
      rw [cloGo_lookup_ne sp dp src cfg name rest _ _ d1 ev1 hnotin h2,
        entsLookup_set_self]
    · have hne : name ≠ item := by
        rintro rfl
        exact (List.nodup_cons.mp hnd).1 hmem
      unfold cloGo at h
      cases hstep : cloStep sp dp src cfg item dest with
      | error e => rw [hstep] at h; cases h
      | ok p =>
        obtain ⟨dmid, evmid⟩ := p
        rw [hstep] at h
        have hpres := cloStep_lookup_ne sp dp src cfg item dest dmid evmid name hne hstep
        have h2 : cloGo sp dp src cfg rest dmid (evs ++ evmid) = .ok (d1, ev1) := h
        exact ih dmid (evs ++ evmid) d1 ev1 (List.nodup_cons.mp hnd).2 hmem
          (hpres.trans hdest) h2

/-- C8 (amended): for a source entry that is a symbolic link to a file and
is NEW-ONLY (absent from the destination), with link-following disabled and
outside check mode, a successful new-only pass produces a destination entry
that is itself a symbolic link with the identical target string — the
linked file's content is never copied in its place — and reports changed.
For an entry that already exists at the destination (a changed entry), the
link re-creation instead fails on the existing path (see the
counterexample). -/
theorem left_only_symlink_recreated (sp dp : String) (src dest : FEntries)
    (cfg : TCfg) (name tgt : String) (c : String) (m : Nat)
    (ch : Bool) (dest1 : FEntries) (evs : List String)
    (hck : cfg.checkMode = false)
    (hlf : cfg.localFollow = some false)
    (hsrc : entsLookup src name = some (.lnk tgt (.toFile c m)))
    (hdest : entsLookup dest name = none)
    (hnd : (entsNames src).Nodup)
    (hrun : copy_left_only sp dp src dest cfg = .ok (ch, dest1, evs)) :
    entsLookup dest1 name = some (.lnk tgt (.toFile c m)) ∧ ch = true := by
  unfold copy_left_only at hrun
  rw [hck] at hrun
  simp only [Bool.false_eq_true, if_false] at hrun
  have hmem : name ∈ leftOnlyNames src dest := by
    unfold leftOnlyNames
    rw [List.mem_filter]
    refine ⟨entsLookup_mem_names src name _ hsrc, ?_⟩
    simp [entsHas, hdest]
  have hnodup : (leftOnlyNames src dest).Nodup := hnd.filter _
  cases hgo : cloGo sp dp src cfg (leftOnlyNames src dest) dest [] with
  | error e => rw [hgo] at hrun; cases hrun
  | ok p =>
    obtain ⟨d', e'⟩ := p
    rw [hgo] at hrun
    injection hrun with hrun'
    injection hrun' with hb hrest
    injection hrest with hd he
    subst hb; subst hd
    refine ⟨cloGo_symlink sp dp src cfg name tgt c m hlf hsrc _ dest [] d' e'
      hnodup hmem hdest hgo, ?_⟩
    have : (leftOnlyNames src dest).isEmpty = false := by
      cases hl : leftOnlyNames src dest with
      | nil => rw [hl] at hmem; cases hmem
      | cons a b => rfl
    rw [this]
    rfl

def c8wsrc : FEntries := .cons "x" (.lnk "tgt" (.toFile "A" 1)) .nil

/-- Witness for `left_only_symlink_recreated` at concrete inputs. -/
theorem left_only_symlink_recreated_witness :
    entsLookup (.cons "x" (.lnk "tgt" (.toFile "A" 1)) .nil) "x" =
      some (.lnk "tgt" (.toFile "A" 1)) ∧ true = true :=
  left_only_symlink_recreated "/s" "/t" c8wsrc .nil c8cfg "x" "tgt" "A" 1 true
    (.cons "x" (.lnk "tgt" (.toFile "A" 1)) .nil) [] rfl rfl rfl rfl
    (by decide) rfl

/-! ## Theorems about the single-file commit path -/

theorem attrsDiffer_applyAttrs (cfg : Cfg) (a : Attrs) :
    attrsDiffer cfg (applyAttrs cfg a) = false := by
  unfold attrsDiffer applyAttrs
  cases cfg.owner <;> cases cfg.group <;> cases cfg.mode <;> simp

/-- In check mode the commit block mutates nothing and reports the
content-level determination of line 634 (the metadata step of line 805 is
skipped). -/
theorem runCommit_check (cfg : Cfg) (d0 : DNode) (md : Bool)
    (hck : cfg.checkMode = true) :
    runCommit cfg d0 md =
      ⟨.exitOk none (cond634 cfg d0), d0, md, none, cfg.srcAttrs, false⟩ := by
  unfold runCommit
  by_cases hc : cond634 cfg d0 = true
  · simp [hc, hck]
  · rw [Bool.not_eq_true] at hc
    simp [hc, hck]

/-- Outside check mode, when the content condition of line 634 is false on
a regular-file destination, no content mutation happens and only the
metadata reconciliation of line 805 runs. -/
theorem runCommit_nochange (cfg : Cfg) (f : RegFile) (md : Bool)
    (hck : cfg.checkMode = false) (hc : cond634 cfg (.regf f) = false) :
    runCommit cfg (.regf f) md =
      ⟨.exitOk none (attrsDiffer cfg f.attrs),
        .regf ⟨f.content, applyAttrs cfg f.attrs⟩, md, none, cfg.srcAttrs,
        false⟩ := by
  unfold runCommit
  simp [hc, hck, islinkB, rewrap, resolvedFile]

/-- Under passing source/gate/force/destination-directory checks and a
destination path without trailing separator, `main` reduces to the commit
block of lines 633-809. -/
theorem runMain_to_commit (cfg : Cfg) (w : World)
    (hs : cfg.srcExists = true) (hg : gateFails cfg = false)
    (hf : cfg.force = true) (hsep : cfg.destEndsSep = false)
    (hdir : w.dirnameExists = true) :
    runMain cfg w = runCommit cfg w.dest false := by
  by_cases hex : destExistsB w.dest = true
  · simp [runMain, hs, hg, hf, hsep, hdir, hex]
  · rw [Bool.not_eq_true] at hex
    simp [runMain, hs, hg, hf, hsep, hdir, hex]

/-- C3: when an expected checksum is supplied (non-empty, per the Python
truthiness test of line 562) and the computed source checksum differs from
it, `main` fails with the integrity error before performing any mutation:
the destination object, the intermediate directories, the backups and the
staged source's attributes are all untouched. -/
theorem checksum_gate_no_mutation (cfg : Cfg) (w : World) (c : String)
    (hs : cfg.srcExists = true) (hck : cfg.checksum = some c) (hne : c ≠ "")
    (hdiff : sha1 cfg.srcContent ≠ c) :
    runMain cfg w = ⟨.failChecksum (some (sha1 cfg.srcContent)) c, w.dest,
      false, none, cfg.srcAttrs, false⟩ := by
  have hgate : gateFails cfg = true := by
    simp [gateFails, hck, hne, hdiff]
  simp [runMain, hs, hgate, hck]

def c3cfg : Cfg :=
  { srcExists := true
    srcContent := "X"
    srcAttrs := ⟨0, 0, 644⟩
    destPath := "/d/f"
    checksum := some "zz"
    backup := true
    force := true
    validate := none
    remoteSrc := false
    follow := false
    checkMode := false
    owner := none
    group := none
    mode := none
    destEndsSep := false
    backupDate := "d"
    validatorRc := 0
    srcHasAcls := false }

/-- Witness for `checksum_gate_no_mutation` at concrete inputs. -/
theorem checksum_gate_no_mutation_witness :
    runMain c3cfg ⟨.regf ⟨"Y", ⟨0, 0, 644⟩⟩, true⟩ =
      ⟨.failChecksum (some (sha1 "X")) "zz", .regf ⟨"Y", ⟨0, 0, 644⟩⟩, false,
        none, ⟨0, 0, 644⟩, false⟩ :=
  checksum_gate_no_mutation c3cfg ⟨.regf ⟨"Y", ⟨0, 0, 644⟩⟩, true⟩ "zz"
    rfl rfl (by decide) (by decide)

/-- C10: when the destination path already exists and `force` is false,
`main` exits immediately (line 609) reporting changed=false with the
"file already exists" message: no content mutation, no backup, and no
metadata change on the destination — the metadata step of line 805 is
never reached. -/
theorem force_false_no_mutation (cfg : Cfg) (w : World)
    (hs : cfg.srcExists = true) (hg : gateFails cfg = false)
    (hd : destExistsB w.dest = true) (hdir : w.dirnameExists = true)
    (hf : cfg.force = false) :
    runMain cfg w = ⟨.exitOk (some "file already exists") false, w.dest,
      false, none, cfg.srcAttrs, false⟩ := by
  simp [runMain, hs, hg, hd, hdir, hf]

def c10cfg : Cfg :=
  { srcExists := true
    srcContent := "X"
    srcAttrs := ⟨0, 0, 644⟩
    destPath := "/d/f"
    checksum := none
    backup := true
    force := false
    validate := none
    remoteSrc := false
    follow := false
    checkMode := false
    owner := some 3
    group := some 3
    mode := some 600
    destEndsSep := false
    backupDate := "d"
    validatorRc := 0
    srcHasAcls := false }

/-- Witness for `force_false_no_mutation` at concrete inputs (destination
content differs and metadata differs, yet nothing is touched). -/
theorem force_false_no_mutation_witness :
    runMain c10cfg ⟨.regf ⟨"Y", ⟨0, 0, 644⟩⟩, true⟩ =
      ⟨.exitOk (some "file already exists") false, .regf ⟨"Y", ⟨0, 0, 644⟩⟩,
        false, none, ⟨0, 0, 644⟩, false⟩ :=
  force_false_no_mutation c10cfg ⟨.regf ⟨"Y", ⟨0, 0, 644⟩⟩, true⟩
    rfl rfl rfl rfl rfl

/-- C4: in the single-file commit, when the source and destination content
checksums are equal and the destination is not a symbolic link needing
conversion, no content mutation is performed and no backup is taken — the
content-level changed determination is false — while the metadata
reconciliation of line 805 still runs afterward (the reported changed flag
is exactly its owner/group/mode comparison).  Consequently a second run
from the state the first run produced reports changed=false. -/
theorem skip_if_unchanged_metadata (cfg : Cfg) (w : World) (f : RegFile)
    (hs : cfg.srcExists = true) (hg : gateFails cfg = false)
    (hf : cfg.force = true) (hck : cfg.checkMode = false)
    (hdir : w.dirnameExists = true)
    (hd : w.dest = .regf f) (heq : sha1 cfg.srcContent = sha1 f.content) :
    runMain cfg w = ⟨.exitOk none (attrsDiffer cfg f.attrs),
      .regf ⟨f.content, applyAttrs cfg f.attrs⟩, false, none, cfg.srcAttrs,
      false⟩ ∧
    (runMain cfg ⟨.regf ⟨f.content, applyAttrs cfg f.attrs⟩, true⟩).outcome =
      .exitOk none false := by
  have hcond : cond634 cfg (.regf f) = false := by
    simp [cond634, islinkB, destExistsB, resolvedFile, heq]
  have hcond2 : cond634 cfg (.regf ⟨f.content, applyAttrs cfg f.attrs⟩) = false := by
    simp [cond634, islinkB, destExistsB, resolvedFile, heq]
  constructor
  · have h1 : runMain cfg w = runCommit cfg w.dest false := by
      simp [runMain, hs, hg, hf, hd, hdir, destExistsB]
    rw [h1, hd, runCommit_nochange cfg f false hck hcond]
  · have h2 : runMain cfg ⟨.regf ⟨f.content, applyAttrs cfg f.attrs⟩, true⟩ =
        runCommit cfg (.regf ⟨f.content, applyAttrs cfg f.attrs⟩) false := by
      simp [runMain, hs, hg, hf, destExistsB]
    rw [h2, runCommit_nochange cfg _ false hck hcond2]
    simp [attrsDiffer_applyAttrs]

def c4cfg : Cfg :=
  { srcExists := true
    srcContent := "X"
    srcAttrs := ⟨0, 0, 600⟩
    destPath := "/d/f"
    checksum := none
    backup := true
    force := true
    validate := none
    remoteSrc := false
    follow := false
    checkMode := false
    owner := some 9
    group := none
    mode := none
    destEndsSep := false
    backupDate := "d"
    validatorRc := 0
    srcHasAcls := false }

/-- Witness for `skip_if_unchanged_metadata` at concrete inputs: identical
content, differing owner — content untouched, owner reconciled, second run
unchanged. -/
theorem skip_if_unchanged_metadata_witness :
    runMain c4cfg ⟨.regf ⟨"X", ⟨5, 0, 644⟩⟩, true⟩ =
      ⟨.exitOk none (attrsDiffer c4cfg ⟨5, 0, 644⟩),
        .regf ⟨"X", applyAttrs c4cfg ⟨5, 0, 644⟩⟩, false, none, c4cfg.srcAttrs,
        false⟩ ∧
    (runMain c4cfg ⟨.regf ⟨"X", applyAttrs c4cfg ⟨5, 0, 644⟩⟩, true⟩).outcome =
      .exitOk none false :=
  skip_if_unchanged_metadata c4cfg ⟨.regf ⟨"X", ⟨5, 0, 644⟩⟩, true⟩
    ⟨"X", ⟨5, 0, 644⟩⟩ rfl rfl rfl rfl rfl rfl rfl

def c6cfg : Cfg :=
  { srcExists := true
    srcContent := "X"
    srcAttrs := ⟨0, 0, 644⟩
    destPath := "/d/f"
    checksum := none
    backup := false
    force := true
    validate := none
    remoteSrc := false
    follow := false
    checkMode := false
    owner := some 10
    group := none
    mode := none
    destEndsSep := false
    backupDate := "d"
    validatorRc := 0
    srcHasAcls := false }

def c6w : World := ⟨.regf ⟨"X", ⟨5, 0, 644⟩⟩, true⟩

/-- C6 (counterexample): dry-run does NOT always produce the same changed
determination as the mutating run.  With identical content but a differing
requested owner, the mutating run reports changed=true (the metadata
reconciliation of lines 805-807 runs and reconciles the owner), while the
check-mode run reports changed=false, because line 805 skips
`set_fs_attributes_if_different` — and its contribution to the changed
flag — entirely in check mode. -/
theorem check_mode_changed_counterexample :
    (runMain c6cfg c6w).outcome = .exitOk none true ∧
    (runMain { c6cfg with checkMode := true } c6w).outcome = .exitOk none false ∧
    (runMain { c6cfg with checkMode := true } c6w).dest = c6w.dest :=
  ⟨rfl, rfl, rfl⟩

/-- C6 (amended): in the single-file commit (destination without trailing
separator), check mode performs no filesystem mutation — destination
object, backups, intermediate directories and staged-source attributes all
untouched — and reports exactly the content-level determination of
line 634, which is computed identically to the mutating run; but the
metadata reconciliation of line 805 runs only outside check mode, so when
no content change is needed the mutating run reports changed precisely
when owner/group/mode differ, while check mode reports changed=false. -/
theorem check_mode_purity_amended (cfg : Cfg) (w : World) (f : RegFile)
    (hs : cfg.srcExists = true) (hg : gateFails cfg = false)
    (hf : cfg.force = true) (hsep : cfg.destEndsSep = false)
    (hdir : w.dirnameExists = true) :
    (runMain { cfg with checkMode := true } w).dest = w.dest ∧
    (runMain { cfg with checkMode := true } w).backupFile = none ∧
    (runMain { cfg with checkMode := true } w).madeDirs = false ∧
    (runMain { cfg with checkMode := true } w).srcAttrs = cfg.srcAttrs ∧
    (runMain { cfg with checkMode := true } w).outcome =
      .exitOk none (cond634 cfg w.dest) ∧
    (cond634 cfg w.dest = false → w.dest = .regf f →
      (runMain { cfg with checkMode := false } w).outcome =
        .exitOk none (attrsDiffer cfg f.attrs)) := by
  have hcommit : runCommit { cfg with checkMode := true } w.dest false =
      ⟨.exitOk none (cond634 cfg w.dest), w.dest, false, none, cfg.srcAttrs,
        false⟩ := runCommit_check { cfg with checkMode := true } w.dest false rfl
  have hkey : runMain { cfg with checkMode := true } w =
      ⟨.exitOk none (cond634 cfg w.dest), w.dest, false, none, cfg.srcAttrs,
        false⟩ := by
    rw [runMain_to_commit { cfg with checkMode := true } w hs hg hf hsep hdir]
    exact hcommit
  refine ⟨by rw [hkey], by rw [hkey], by rw [hkey], by rw [hkey], by rw [hkey],
    ?_⟩
  intro hc hd
  have hc2 : cond634 { cfg with checkMode := false } (.regf f) = false := by
    rw [hd] at hc; exact hc
  have h2 : runMain { cfg with checkMode := false } w =
      runCommit { cfg with checkMode := false } w.dest false :=
    runMain_to_commit { cfg with checkMode := false } w hs hg hf hsep hdir
  rw [h2, hd, runCommit_nochange { cfg with checkMode := false } f false rfl hc2]
  rfl

/-- Witness for `check_mode_purity_amended` at concrete inputs. -/
theorem check_mode_purity_amended_witness :
    (runMain { c6cfg with checkMode := true } c6w).dest = c6w.dest ∧
    (runMain { c6cfg with checkMode := true } c6w).outcome =
      .exitOk none (cond634 c6cfg c6w.dest) ∧
    (runMain { c6cfg with checkMode := false } c6w).outcome =
      .exitOk none (attrsDiffer c6cfg ⟨5, 0, 644⟩) := by
  have h := check_mode_purity_amended c6cfg c6w ⟨"X", ⟨5, 0, 644⟩⟩
    rfl rfl rfl rfl rfl
  exact ⟨h.1, h.2.2.2.2.1, h.2.2.2.2.2 rfl rfl⟩

def c7cfg : Cfg :=
  { srcExists := true
    srcContent := "X"
    srcAttrs := ⟨0, 0, 600⟩
    destPath := "/d/f"
    checksum := none
    backup := false
    force := true
    validate := some "checker %s"
    remoteSrc := false
    follow := false
    checkMode := false
    owner := none
    group := none
    mode := none
    destEndsSep := false
    backupDate := "d"
    validatorRc := 1
    srcHasAcls := false }

def c7w : World := ⟨.lnk "t" (some ⟨"X", ⟨0, 0, 644⟩⟩), true⟩

/-- C7 (counterexample): a non-zero validator exit does NOT always leave
the destination untouched.  When the destination is a symbolic link (here
resolving to content identical to the source), lines 641-643 unlink it and
materialise an empty regular file BEFORE the validator runs, so a failing
validation (exit status 1) leaves the destination as an empty regular file
instead of the original link. -/
theorem validate_symlink_dest_touched :
    (runMain c7cfg c7w).outcome = .failValidate 1 ∧
    (runMain c7cfg c7w).dest = .regf ⟨"", newFileAttrs⟩ ∧
    (runMain c7cfg c7w).dest ≠ c7w.dest := by
  refine ⟨rfl, rfl, ?_⟩
  decide

/-- C7 (amended): with a content-validation command configured and a
destination that is NOT a symbolic link: a template lacking the `%s`
placeholder is rejected as an error; the requested mode/owner/group are
applied to the staged source before validation, so the validator sees the
final attributes; and a non-zero validator exit causes failure carrying the
exit status, with the destination left untouched (only the backup, taken
before validation when enabled, has been written).  A symlink destination
is instead converted before validation runs (see the counterexample). -/
theorem validate_failure_amended (cfg : Cfg) (w : World) (f : RegFile) (v : String)
    (hs : cfg.srcExists = true) (hg : gateFails cfg = false)
    (hf : cfg.force = true) (hck : cfg.checkMode = false)
    (hsep : cfg.destEndsSep = false) (hdir : w.dirnameExists = true)
    (hd : w.dest = .regf f) (hv : cfg.validate = some v)
    (hchg : cond634 cfg w.dest = true) :
    (containsPctS v = false →
      runMain cfg w = ⟨.failValidateTemplate v, w.dest, false,
        (if cfg.backup then some (frameworkBackupLocal cfg.destPath cfg.backupDate)
         else none),
        applyAttrs cfg cfg.srcAttrs, false⟩) ∧
    (containsPctS v = true → cfg.validatorRc ≠ 0 →
      runMain cfg w = ⟨.failValidate cfg.validatorRc, w.dest, false,
        (if cfg.backup then some (frameworkBackupLocal cfg.destPath cfg.backupDate)
         else none),
        applyAttrs cfg cfg.srcAttrs, false⟩) := by
  have h1 : runMain cfg w = runCommit cfg w.dest false :=
    runMain_to_commit cfg w hs hg hf hsep hdir
  rw [hd] at hchg
  constructor
  · intro hpct
    rw [h1, hd]
    unfold runCommit
    simp [hchg, hck, hv, hpct, islinkB, destExistsB, rewrap]
  · intro hpct hrc
    rw [h1, hd]
    unfold runCommit
    simp [hchg, hck, hv, hpct, hrc, islinkB, destExistsB, rewrap]

def c7wcfg : Cfg :=
  { srcExists := true
    srcContent := "X"
    srcAttrs := ⟨0, 0, 600⟩
    destPath := "/d/f"
    checksum := none
    backup := true
    force := true
    validate := some "vv %s"
    remoteSrc := false
    follow := false
    checkMode := false
    owner := some 2
    group := none
    mode := none
    destEndsSep := false
    backupDate := "d"
    validatorRc := 1
    srcHasAcls := false }

/-- Witness for `validate_failure_amended` at concrete inputs. -/
theorem validate_failure_amended_witness :
    runMain c7wcfg ⟨.regf ⟨"Y", ⟨0, 0, 644⟩⟩, true⟩ =
      ⟨.failValidate c7wcfg.validatorRc, .regf ⟨"Y", ⟨0, 0, 644⟩⟩, false,
        (if c7wcfg.backup then
          some (frameworkBackupLocal c7wcfg.destPath c7wcfg.backupDate)
         else none),
        applyAttrs c7wcfg c7wcfg.srcAttrs, false⟩ :=
  (validate_failure_amended c7wcfg ⟨.regf ⟨"Y", ⟨0, 0, 644⟩⟩, true⟩
    ⟨"Y", ⟨0, 0, 644⟩⟩ "vv %s" rfl rfl rfl rfl rfl rfl rfl rfl (by decide)).2
    rfl (by decide)
